import Mathlib

/-!
Shallow embedding of `probability_calculator.py` (the Hat class and the
`experiment` Monte-Carlo estimator).

Randomness model: `random.choice(contents)` picks one element of the current
list uniformly; we parameterise a draw by a stream of indices
`choices : Nat → Nat` and interpret `choices step % contents.length` as the
index picked at that step, so every behaviour of the Python code corresponds
to some stream and conversely.  `list.remove(value)` deletes the first
occurrence of the value, which is exactly `List.erase`.

Python integers are `Int` (counts, draw sizes, trial counts may be negative);
`range n` over a non-positive `n` iterates zero times, which is `Int.toNat`.
The float `count_success / num_experiments` is modelled as exact rational
division; the only exception the Python function can raise is the
`ZeroDivisionError` of that final division.
-/

namespace ProbabilityCalculator

/-- A Hat object: `contents` is the mutable list of ball colours, and
`original_contents` is the copy `self.contents[:]` taken at construction. -/
structure Hat where
  contents : List String
  original_contents : List String
deriving DecidableEq

/-- Construction `Hat(**kwargs)`: for each `(color, count)` pair append
`color` to `contents` `count` times (`for _ in range(count)` appends nothing
when `count` is not positive), then snapshot `original_contents`. -/
def Hat.init (kwargs : List (String × Int)) : Hat :=
  let contents := kwargs.foldl (fun acc p => acc ++ List.replicate p.2.toNat p.1) []
  { contents := contents, original_contents := contents }

/-- The selection loop of `Hat.draw`: `k` iterations, each picking
`random_ball = contents[choices 0 % len]` (the model of `random.choice`),
appending it to the extracted list and removing its first occurrence from
`contents` (`list.remove`).  Returns (extracted balls, remaining contents). -/
def drawLoop : (Nat → Nat) → Nat → List String → List String × List String
  | _, 0, contents => ([], contents)
  | choices, k + 1, contents =>
      let random_ball := contents.getD (choices 0 % contents.length) ""
      let rest := contents.erase random_ball
      let out := drawLoop (fun i => choices (i + 1)) k rest
      (random_ball :: out.1, out.2)

/-- Method `Hat.draw(num_balls)`: if `num_balls >= len(self.contents)` return
all remaining balls and clear the hat; otherwise run the selection loop
`num_balls` times.  Returns the drawn list together with the hat's state
after the call. -/
def Hat.draw (h : Hat) (num_balls : Int) (choices : Nat → Nat) :
    List String × Hat :=
  if (h.contents.length : Int) ≤ num_balls then
    (h.contents, { h with contents := [] })
  else
    let out := drawLoop choices num_balls.toNat h.contents
    (out.1, { h with contents := out.2 })

/-- Python `copy.deepcopy(hat)`: a fresh Hat whose fields are copies of the
original's; mutating the copy cannot affect the original. -/
def deepcopy (h : Hat) : Hat :=
  { contents := h.contents, original_contents := h.original_contents }

/-- The scoring step of `experiment`: tally the drawn balls
(`drawn_balls_count`, i.e. `List.count`) and check that for every
`(color, expected_amount)` in `expected_balls` the tally is not below the
expectation. -/
def meets_expectations (drawn_balls : List String)
    (expected_balls : List (String × Int)) : Bool :=
  expected_balls.all fun p => decide (p.2 ≤ (drawn_balls.count p.1 : Int))

/-- One iteration of the experiment loop: deep-copy the reference hat, draw
`num_balls_drawn` balls from the copy, and score the draw.  The second
component is the reference hat's state after the trial: the draw mutates
`hat_copy`, so the reference hat is returned as it was. -/
def run_trial (hat : Hat) (expected_balls : List (String × Int))
    (num_balls_drawn : Int) (choices : Nat → Nat) : Bool × Hat :=
  let hat_copy := deepcopy hat
  let out := Hat.draw hat_copy num_balls_drawn choices
  let drawn_balls := out.1
  (meets_expectations drawn_balls expected_balls, hat)

/-- The trial loop of `experiment`: runs `n` trials against the reference hat
(threaded through each trial), returning `count_success` and the reference
hat's state after the loop.  `rand i` is the index stream consumed by trial
`i`. -/
def experiment_steps (expected_balls : List (String × Int))
    (num_balls_drawn : Int) (rand : Nat → Nat → Nat) :
    Nat → Hat → Nat × Hat
  | 0, hat => (0, hat)
  | n + 1, hat =>
      let t := run_trial hat expected_balls num_balls_drawn (rand n)
      let rest := experiment_steps expected_balls num_balls_drawn rand n t.2
      ((if t.1 then 1 else 0) + rest.1, rest.2)

/-- The one exception `experiment` can raise: the `ZeroDivisionError` of the
final `count_success / num_experiments`. -/
inductive PyError where
  | zeroDivision
deriving DecidableEq

/-- Function `experiment(hat, expected_balls, num_balls_drawn,
num_experiments)`: run the trials (`range` of a non-positive trial count runs
none) and return `count_success / num_experiments`, which raises
`ZeroDivisionError` exactly when `num_experiments = 0`. -/
def experiment (hat : Hat) (expected_balls : List (String × Int))
    (num_balls_drawn : Int) (num_experiments : Int)
    (rand : Nat → Nat → Nat) : Except PyError Rat :=
  let run := experiment_steps expected_balls num_balls_drawn rand
    num_experiments.toNat hat
  if num_experiments = 0 then Except.error PyError.zeroDivision
  else Except.ok ((run.1 : Rat) / (num_experiments : Rat))

/-- The reference hat's state after `experiment` returns. -/
def experiment_ref_after (hat : Hat) (expected_balls : List (String × Int))
    (num_balls_drawn : Int) (num_experiments : Int)
    (rand : Nat → Nat → Nat) : Hat :=
  (experiment_steps expected_balls num_balls_drawn rand
    num_experiments.toNat hat).2

/-- Applying a sequence of `draw` calls to a hat. -/
def run_draws : Hat → List (Int × (Nat → Nat)) → Hat
  | h, [] => h
  | h, op :: ops => run_draws (Hat.draw h op.1 op.2).2 ops

/-! ### Basic lemmas about `drawLoop` and `draw` -/

/-- The ball picked at each step is an element of the current contents
(the contents are nonempty whenever the loop runs a step with `k` below the
length, see `drawLoop_append_perm`). -/
theorem getD_mod_mem (contents : List String) (i : Nat)
    (h : 0 < contents.length) : contents.getD (i % contents.length) "" ∈ contents := by
  have hi : i % contents.length < contents.length := Nat.mod_lt _ h
  rw [List.getD_eq_getElem?_getD, List.getElem?_eq_getElem hi]
  exact List.getElem_mem hi

/-- The selection loop conserves balls: when at most `contents.length` steps
run, the extracted balls together with the remaining contents are a
permutation of the starting contents. -/
theorem drawLoop_append_perm (k : Nat) :
    ∀ (choices : Nat → Nat) (contents : List String),
      k ≤ contents.length →
      ((drawLoop choices k contents).1 ++ (drawLoop choices k contents).2).Perm
        contents := by
  induction k with
  | zero => intro choices contents _; simp [drawLoop]
  | succ k ih =>
      intro choices contents hk
      have hpos : 0 < contents.length := lt_of_lt_of_le (Nat.succ_pos k) hk
      have hmem := getD_mod_mem contents (choices 0) hpos
      have hlen : k ≤ (contents.erase
          (contents.getD (choices 0 % contents.length) "")).length := by
        rw [List.length_erase_of_mem hmem]
        omega
      have hrest := ih (fun i => choices (i + 1))
        (contents.erase (contents.getD (choices 0 % contents.length) "")) hlen
      simp only [drawLoop, List.cons_append]
      exact ((hrest.cons _).trans (List.perm_cons_erase hmem).symm)

/-- A draw conserves balls: extracted balls plus the hat's remaining contents
permute the contents before the call (both the over-draw branch and the
selection loop). -/
theorem draw_append_perm (h : Hat) (num_balls : Int) (choices : Nat → Nat) :
    ((h.draw num_balls choices).1 ++
      (h.draw num_balls choices).2.contents).Perm h.contents := by
  unfold Hat.draw
  split
  · simp
  · rename_i hlt
    have hk : num_balls.toNat ≤ h.contents.length := by omega
    exact drawLoop_append_perm num_balls.toNat choices h.contents hk

/-- No colour can be drawn more often than it occurs in the hat. -/
theorem draw_count_le (h : Hat) (num_balls : Int) (choices : Nat → Nat)
    (c : String) :
    (h.draw num_balls choices).1.count c ≤ h.contents.count c := by
  have hp := (draw_append_perm h num_balls choices).count_eq c
  rw [List.count_append] at hp
  omega

/-- A draw never touches `original_contents`. -/
theorem draw_original (h : Hat) (num_balls : Int) (choices : Nat → Nat) :
    (h.draw num_balls choices).2.original_contents = h.original_contents := by
  unfold Hat.draw
  split <;> rfl

/-- After a draw the hat's contents are a sub-multiset of the contents before
the call: draws only remove balls. -/
theorem draw_contents_le (h : Hat) (num_balls : Int) (choices : Nat → Nat) :
    ((h.draw num_balls choices).2.contents : Multiset String) ≤
      (h.contents : Multiset String) := by
  have hp : ((h.draw num_balls choices).1 : Multiset String) +
      ((h.draw num_balls choices).2.contents : Multiset String) =
      (h.contents : Multiset String) := by
    rw [Multiset.coe_add]
    exact Multiset.coe_eq_coe.2 (draw_append_perm h num_balls choices)
  exact Multiset.le_iff_exists_add.2 ⟨_, by rw [← hp, add_comm]⟩

/-- Drawing zero balls extracts nothing. -/
theorem draw_zero (h : Hat) (choices : Nat → Nat) :
    (h.draw 0 choices).1 = [] := by
  unfold Hat.draw
  split
  · rename_i hle
    have : h.contents.length = 0 := by omega
    exact List.length_eq_zero.1 this
  · rfl

/-- Drawing zero balls leaves the contents unchanged. -/
theorem draw_zero_contents (h : Hat) (choices : Nat → Nat) :
    (h.draw 0 choices).2.contents = h.contents := by
  unfold Hat.draw
  split
  · rename_i hle
    have : h.contents.length = 0 := by omega
    exact (List.length_eq_zero.1 this).symm
  · rfl

/-! ### Lemmas about the experiment loop -/

/-- A trial hands the reference hat back untouched: the draw is applied to
the deep copy. -/
theorem run_trial_snd (hat : Hat) (expected_balls : List (String × Int))
    (num_balls_drawn : Int) (choices : Nat → Nat) :
    (run_trial hat expected_balls num_balls_drawn choices).2 = hat := rfl

/-- The trial loop threads the reference hat through unchanged: each trial
draws from a deep copy. -/
theorem experiment_steps_ref (expected_balls : List (String × Int))
    (num_balls_drawn : Int) (rand : Nat → Nat → Nat) (n : Nat) (hat : Hat) :
    (experiment_steps expected_balls num_balls_drawn rand n hat).2 = hat := by
  induction n with
  | zero => rfl
  | succ n ih => simp only [experiment_steps, run_trial_snd, ih]

/-- The success counter never exceeds the number of trials. -/
theorem experiment_steps_le (expected_balls : List (String × Int))
    (num_balls_drawn : Int) (rand : Nat → Nat → Nat) (n : Nat) (hat : Hat) :
    (experiment_steps expected_balls num_balls_drawn rand n hat).1 ≤ n := by
  induction n with
  | zero => exact Nat.le_refl 0
  | succ n ih =>
      simp only [experiment_steps, run_trial_snd]
      split <;> omega

/-- When every trial's score is a success the counter equals the number of
trials. -/
theorem experiment_steps_all (expected_balls : List (String × Int))
    (num_balls_drawn : Int) (rand : Nat → Nat → Nat) (n : Nat) (hat : Hat)
    (hall : ∀ m, (run_trial hat expected_balls num_balls_drawn (rand m)).1 = true) :
    (experiment_steps expected_balls num_balls_drawn rand n hat).1 = n := by
  induction n with
  | zero => rfl
  | succ n ih =>
      simp only [experiment_steps, run_trial_snd, hall n, if_true]
      omega

/-- When no trial's score is a success the counter is zero. -/
theorem experiment_steps_none (expected_balls : List (String × Int))
    (num_balls_drawn : Int) (rand : Nat → Nat → Nat) (n : Nat) (hat : Hat)
    (hnone : ∀ m, (run_trial hat expected_balls num_balls_drawn (rand m)).1 = false) :
    (experiment_steps expected_balls num_balls_drawn rand n hat).1 = 0 := by
  induction n with
  | zero => rfl
  | succ n ih =>
      simp only [experiment_steps, run_trial_snd, hnone n, Bool.false_eq_true,
        if_false]
      omega

/-- The over-draw branch of `draw` in full: everything is returned and the
contents are cleared. -/
theorem draw_all (h : Hat) (num_balls : Int) (choices : Nat → Nat)
    (hk : (h.contents.length : Int) ≤ num_balls) :
    h.draw num_balls choices = (h.contents, { h with contents := [] }) := by
  unfold Hat.draw
  rw [if_pos hk]

/-- A sequence of draws never touches `original_contents`. -/
theorem run_draws_original (ops : List (Int × (Nat → Nat))) :
    ∀ h : Hat, (run_draws h ops).original_contents = h.original_contents := by
  induction ops with
  | nil => intro h; rfl
  | cons op ops ih =>
      intro h
      rw [run_draws, ih, draw_original]

/-- A sequence of draws only removes balls from the contents. -/
theorem run_draws_contents_le (ops : List (Int × (Nat → Nat))) :
    ∀ h : Hat, ((run_draws h ops).contents : Multiset String) ≤
      (h.contents : Multiset String) := by
  induction ops with
  | nil => intro h; exact le_refl _
  | cons op ops ih =>
      intro h
      exact le_trans (ih _) (draw_contents_le h op.1 op.2)

/-! ### Claim theorems -/

/-- C1: for every reference Hat, criterion mapping, draw size, and positive
trial count, `experiment` leaves the reference Hat unmodified: after the call
its `contents` and `original_contents` equal their pre-call values. -/
theorem claim_C1_trial_isolation (hat : Hat)
    (expected_balls : List (String × Int))
    (num_balls_drawn num_experiments : Int) (rand : Nat → Nat → Nat)
    (hn : 0 < num_experiments) :
    (experiment_ref_after hat expected_balls num_balls_drawn num_experiments
        rand).contents = hat.contents ∧
    (experiment_ref_after hat expected_balls num_balls_drawn num_experiments
        rand).original_contents = hat.original_contents := by
  unfold experiment_ref_after
  rw [experiment_steps_ref]
  exact ⟨rfl, rfl⟩

/-- Witness for C1 at a concrete hat, criterion, draw size 1 and 2 trials. -/
theorem claim_C1_witness :
    (0 : Int) < 2 ∧
    ((experiment_ref_after (Hat.init [("a", 1)]) [("a", 1)] 1 2
        (fun _ _ => 0)).contents = (Hat.init [("a", 1)]).contents ∧
     (experiment_ref_after (Hat.init [("a", 1)]) [("a", 1)] 1 2
        (fun _ _ => 0)).original_contents =
          (Hat.init [("a", 1)]).original_contents) :=
  ⟨by decide,
   claim_C1_trial_isolation (Hat.init [("a", 1)]) [("a", 1)] 1 2
     (fun _ _ => 0) (by decide)⟩

/-- C2: drawing `k ≥` the current number of balls returns all remaining balls
and leaves the hat empty; this is a normal result, not an error. -/
theorem claim_C2_overdraw (h : Hat) (num_balls : Int) (choices : Nat → Nat)
    (hk : (h.contents.length : Int) ≤ num_balls) :
    (h.draw num_balls choices).1 = h.contents ∧
    (h.draw num_balls choices).2.contents = [] ∧
    (h.draw num_balls choices).2.original_contents = h.original_contents := by
  rw [draw_all h num_balls choices hk]
  exact ⟨rfl, rfl, rfl⟩

/-- Witness for C2: drawing 5 from a hat of 2 balls. -/
theorem claim_C2_witness :
    (((Hat.init [("a", 2)]).contents.length : Int) ≤ 5) ∧
    (((Hat.init [("a", 2)]).draw 5 (fun _ => 0)).1 =
        (Hat.init [("a", 2)]).contents ∧
     ((Hat.init [("a", 2)]).draw 5 (fun _ => 0)).2.contents = [] ∧
     ((Hat.init [("a", 2)]).draw 5 (fun _ => 0)).2.original_contents =
        (Hat.init [("a", 2)]).original_contents) :=
  ⟨by decide, claim_C2_overdraw (Hat.init [("a", 2)]) 5 (fun _ => 0) (by decide)⟩

/-- C3: a trial of `experiment` is counted as a success iff, for every
`(color, expected_amount)` pair of the criterion, the number of occurrences
of that colour among the balls drawn from the deep copy is at least the
expected amount; colours outside the criterion play no role. -/
theorem claim_C3_success_criterion (hat : Hat)
    (expected_balls : List (String × Int)) (num_balls_drawn : Int)
    (choices : Nat → Nat) :
    (run_trial hat expected_balls num_balls_drawn choices).1 = true ↔
      ∀ p ∈ expected_balls,
        p.2 ≤ (((deepcopy hat).draw num_balls_drawn choices).1.count p.1 : Int) := by
  simp [run_trial, meets_expectations]

/-- C4: a draw of `0 ≤ k ≤ size` balls followed by a draw of all remaining
balls conserves the multiset of balls: nothing is created or lost. -/
theorem claim_C4_conservation (h : Hat) (num_balls : Int)
    (choices choices2 : Nat → Nat) (h0 : 0 ≤ num_balls)
    (hk : num_balls ≤ (h.contents.length : Int)) :
    (((h.draw num_balls choices).1 ++
        ((h.draw num_balls choices).2.draw
          ((h.draw num_balls choices).2.contents.length : Int) choices2).1 :
        List String) : Multiset String) = (h.contents : Multiset String) := by
  rw [draw_all (h.draw num_balls choices).2
    ((h.draw num_balls choices).2.contents.length : Int) choices2 (le_refl _)]
  exact Multiset.coe_eq_coe.2 (draw_append_perm h num_balls choices)

/-- Witness for C4: drawing 1 of 2 balls, then the rest. -/
theorem claim_C4_witness :
    ((0 : Int) ≤ 1 ∧ (1 : Int) ≤ ((Hat.init [("a", 1), ("b", 1)]).contents.length : Int)) ∧
    ((((Hat.init [("a", 1), ("b", 1)]).draw 1 (fun _ => 0)).1 ++
        (((Hat.init [("a", 1), ("b", 1)]).draw 1 (fun _ => 0)).2.draw
          ((((Hat.init [("a", 1), ("b", 1)]).draw 1 (fun _ => 0)).2.contents.length : Int))
          (fun _ => 0)).1 : List String) : Multiset String) =
      ((Hat.init [("a", 1), ("b", 1)]).contents : Multiset String) :=
  ⟨⟨by decide, by decide⟩,
   claim_C4_conservation (Hat.init [("a", 1), ("b", 1)]) 1 (fun _ => 0)
     (fun _ => 0) (by decide) (by decide)⟩

/-- C9: after construction, over any sequence of draws the snapshot is never
mutated, the contents only ever shrink (as a multiset), and the size of the
contents never exceeds the size of the snapshot. -/
theorem claim_C9_invariants (kwargs : List (String × Int))
    (ops : List (Int × (Nat → Nat))) :
    (run_draws (Hat.init kwargs) ops).original_contents =
        (Hat.init kwargs).original_contents ∧
    ((run_draws (Hat.init kwargs) ops).contents : Multiset String) ≤
        ((Hat.init kwargs).contents : Multiset String) ∧
    (run_draws (Hat.init kwargs) ops).contents.length ≤
        (run_draws (Hat.init kwargs) ops).original_contents.length := by
  refine ⟨run_draws_original ops _, run_draws_contents_le ops _, ?_⟩
  have hcard := Multiset.card_le_card (run_draws_contents_le ops (Hat.init kwargs))
  simp only [Multiset.coe_card] at hcard
  rw [run_draws_original ops]
  exact hcard

/-- C10: a draw of a negative number of balls returns the empty list and
leaves the hat entirely unchanged: no exception, no removal. -/
theorem claim_C10_negative_draw (h : Hat) (num_balls : Int)
    (choices : Nat → Nat) (hneg : num_balls < 0) :
    h.draw num_balls choices = ([], h) := by
  unfold Hat.draw
  rw [if_neg (by omega : ¬ ((h.contents.length : Int) ≤ num_balls))]
  have h0 : num_balls.toNat = 0 := by omega
  rw [h0]
  rfl

/-- Witness for C10: drawing -1 balls from a one-ball hat. -/
theorem claim_C10_witness :
    ((-1 : Int) < 0) ∧
    (Hat.init [("a", 1)]).draw (-1) (fun _ => 0) = ([], Hat.init [("a", 1)]) :=
  ⟨by decide, claim_C10_negative_draw (Hat.init [("a", 1)]) (-1) (fun _ => 0) (by decide)⟩

/-- Deep-copying a Hat yields an equal Hat (field-for-field copy). -/
theorem deepcopy_eq (h : Hat) : deepcopy h = h := rfl

/-- The score of a trial is the criterion check on the balls drawn from the
deep copy. -/
theorem run_trial_fst (hat : Hat) (expected_balls : List (String × Int))
    (num_balls_drawn : Int) (choices : Nat → Nat) :
    (run_trial hat expected_balls num_balls_drawn choices).1 =
      meets_expectations ((deepcopy hat).draw num_balls_drawn choices).1
        expected_balls := rfl

/-- C7: for a positive trial count and non-negative draw size, `experiment`
returns an estimate in [0, 1]; the estimate is exactly 1 when the draw size
covers the whole hat and every required count is at most the colour's count
in the hat, and exactly 0 when some required count exceeds the colour's count
in the whole hat. -/
theorem claim_C7_probability_bounds (hat : Hat)
    (expected_balls : List (String × Int))
    (num_balls_drawn num_experiments : Int) (rand : Nat → Nat → Nat)
    (hn : 0 < num_experiments) (hk : 0 ≤ num_balls_drawn) :
    ∃ p : Rat,
      experiment hat expected_balls num_balls_drawn num_experiments rand =
        Except.ok p ∧
      0 ≤ p ∧ p ≤ 1 ∧
      (((hat.contents.length : Int) ≤ num_balls_drawn ∧
          ∀ q ∈ expected_balls, q.2 ≤ (hat.contents.count q.1 : Int)) →
        p = 1) ∧
      ((∃ q ∈ expected_balls, (hat.contents.count q.1 : Int) < q.2) →
        p = 0) := by
  have hne : num_experiments ≠ 0 := by omega
  have hnQ : (0 : Rat) < (num_experiments : Rat) := by exact_mod_cast hn
  have h1 : ((num_experiments.toNat : Int)) = num_experiments :=
    Int.toNat_of_nonneg (le_of_lt hn)
  have hcast : ((num_experiments.toNat : Rat)) = (num_experiments : Rat) := by
    exact_mod_cast h1
  refine ⟨((experiment_steps expected_balls num_balls_drawn rand
      num_experiments.toNat hat).1 : Rat) / (num_experiments : Rat),
    ?_, ?_, ?_, ?_, ?_⟩
  · simp only [experiment]
    rw [if_neg hne]
  · exact div_nonneg (Nat.cast_nonneg _) (le_of_lt hnQ)
  · rw [div_le_one hnQ]
    have hle := experiment_steps_le expected_balls num_balls_drawn rand
      num_experiments.toNat hat
    have hle2 : ((experiment_steps expected_balls num_balls_drawn rand
        num_experiments.toNat hat).1 : Rat) ≤ (num_experiments.toNat : Rat) := by
      exact_mod_cast hle
    rw [hcast] at hle2
    exact hle2
  · rintro ⟨hov, hreq⟩
    have hall : ∀ m,
        (run_trial hat expected_balls num_balls_drawn (rand m)).1 = true := by
      intro m
      rw [run_trial_fst, deepcopy_eq]
      rw [draw_all hat num_balls_drawn (rand m) hov]
      simp only [meets_expectations]
      exact List.all_eq_true.2 fun q hq => decide_eq_true (hreq q hq)
    rw [experiment_steps_all expected_balls num_balls_drawn rand
      num_experiments.toNat hat hall]
    rw [hcast]
    exact div_self (ne_of_gt hnQ)
  · rintro ⟨q, hq, hlt⟩
    have hnone : ∀ m,
        (run_trial hat expected_balls num_balls_drawn (rand m)).1 = false := by
      intro m
      rw [run_trial_fst, deepcopy_eq]
      have hcle := draw_count_le hat num_balls_drawn (rand m) q.1
      simp only [meets_expectations]
      refine List.all_eq_false.2 ⟨q, hq, ?_⟩
      simp only [decide_eq_true_eq]
      omega
    rw [experiment_steps_none expected_balls num_balls_drawn rand
      num_experiments.toNat hat hnone]
    norm_num

/-- Witness for C7: one ball, one trial, draw size 1. -/
theorem claim_C7_witness :
    ((0 : Int) < 1 ∧ (0 : Int) ≤ 1) ∧
    ∃ p : Rat,
      experiment (Hat.init [("r", 1)]) [("r", 1)] 1 1 (fun _ _ => 0) =
        Except.ok p ∧
      0 ≤ p ∧ p ≤ 1 ∧
      ((((Hat.init [("r", 1)]).contents.length : Int) ≤ 1 ∧
          ∀ q ∈ [(("r" : String), (1 : Int))],
            q.2 ≤ ((Hat.init [("r", 1)]).contents.count q.1 : Int)) →
        p = 1) ∧
      ((∃ q ∈ [(("r" : String), (1 : Int))],
          ((Hat.init [("r", 1)]).contents.count q.1 : Int) < q.2) →
        p = 0) :=
  ⟨⟨by decide, by decide⟩,
   claim_C7_probability_bounds (Hat.init [("r", 1)]) [("r", 1)] 1 1
     (fun _ _ => 0) (by decide) (by decide)⟩

/-- C5 counterexample: constructing a Hat with the negative count
`red = -1` does not fail — `Hat.init` is total, there is no InvalidCount
error anywhere in the code — and returns the Hat with empty contents
(`for _ in range(-1)` appends nothing). -/
theorem claim_C5_counterexample :
    Hat.init [("red", -1)] = { contents := [], original_contents := [] } := rfl

/-- C5 amended: construction never fails, for negative counts included; a
label with a non-positive count simply contributes no balls, exactly as a
count of zero would. -/
theorem claim_C5_amended (color : String) (count : Int)
    (kwargs : List (String × Int)) (hneg : count ≤ 0) :
    Hat.init ((color, count) :: kwargs) = Hat.init ((color, 0) :: kwargs) := by
  simp [Hat.init, Int.toNat_of_nonpos hneg]

/-- Witness for the amended C5 at the concrete count -1. -/
theorem claim_C5_witness :
    ((-1 : Int) ≤ 0) ∧
    Hat.init [("red", -1)] = Hat.init [("red", 0)] :=
  ⟨by decide, claim_C5_amended "red" (-1) [] (by decide)⟩

/-- C6 counterexample: with the negative draw size -1 (and one trial,
empty criterion) `experiment` raises nothing and returns the estimate 1,
instead of the InvalidArgument error the claim requires; no InvalidArgument
error exists in the code. -/
theorem claim_C6_counterexample :
    experiment (Hat.init [("red", 1)]) [] (-1) 1 (fun _ _ => 0) =
      Except.ok 1 := by
  simp only [experiment]
  rw [if_neg (by decide)]
  have hs : (experiment_steps [] (-1) (fun _ _ => 0) (Int.toNat 1)
      (Hat.init [("red", 1)])).1 = 1 := by decide
  rw [hs]
  norm_num

/-- C6 amended: `experiment` fails exactly when `num_experiments = 0`, and
the failure is the ZeroDivisionError of the final
`count_success / num_experiments` (reached after the trial loop, which runs
no trials); for every other trial count — negative draw sizes included — the
call completes and returns an estimate. -/
theorem claim_C6_amended (hat : Hat) (expected_balls : List (String × Int))
    (num_balls_drawn num_experiments : Int) (rand : Nat → Nat → Nat) :
    (∃ e, experiment hat expected_balls num_balls_drawn num_experiments rand =
        Except.error e) ↔ num_experiments = 0 := by
  simp only [experiment]
  split
  · rename_i h
    exact iff_of_true ⟨PyError.zeroDivision, rfl⟩ h
  · rename_i h
    constructor
    · rintro ⟨e, he⟩
      exact Except.noConfusion he
    · intro h0
      exact absurd h0 h

/-- C8 counterexample: with draw size 0 and the non-empty criterion
`{red: 0}` — met by the empty draw — `experiment` returns 1, not the 0 the
claim requires. -/
theorem claim_C8_counterexample :
    experiment (Hat.init [("red", 1)]) [("red", 0)] 0 1 (fun _ _ => 0) =
      Except.ok 1 := by
  simp only [experiment]
  rw [if_neg (by decide)]
  have hs : (experiment_steps [("red", 0)] 0 (fun _ _ => 0) (Int.toNat 1)
      (Hat.init [("red", 1)])).1 = 1 := by decide
  rw [hs]
  norm_num

/-- C8 amended: with draw size 0 and a criterion containing some strictly
positive required count, `experiment` (over a positive trial count) returns
exactly 0: the empty draw cannot meet a positive requirement. -/
theorem claim_C8_amended (hat : Hat) (expected_balls : List (String × Int))
    (num_experiments : Int) (rand : Nat → Nat → Nat)
    (hn : 0 < num_experiments)
    (hpos : ∃ q ∈ expected_balls, 0 < q.2) :
    experiment hat expected_balls 0 num_experiments rand = Except.ok 0 := by
  obtain ⟨q, hq, hqpos⟩ := hpos
  have hnone : ∀ m, (run_trial hat expected_balls 0 (rand m)).1 = false := by
    intro m
    rw [run_trial_fst, deepcopy_eq]
    rw [draw_zero hat (rand m)]
    simp only [meets_expectations]
    refine List.all_eq_false.2 ⟨q, hq, ?_⟩
    simp only [decide_eq_true_eq, List.count_nil]
    omega
  have hs := experiment_steps_none expected_balls 0 rand
    num_experiments.toNat hat hnone
  simp only [experiment]
  rw [if_neg (by omega)]
  rw [hs]
  norm_num

/-- Witness for the amended C8: criterion requiring one red ball, one trial,
draw size 0. -/
theorem claim_C8_witness :
    ((0 : Int) < 1 ∧ ∃ q ∈ [(("red" : String), (1 : Int))], 0 < q.2) ∧
    experiment (Hat.init [("red", 1)]) [("red", 1)] 0 1 (fun _ _ => 0) =
      Except.ok 0 :=
  ⟨⟨by decide, by decide⟩,
   claim_C8_amended (Hat.init [("red", 1)]) [("red", 1)] 1 (fun _ _ => 0)
     (by decide) (by decide)⟩
